import Mathlib

/-!
# ContractsToDashboard — verification of the extraction pipeline spec

Shallow embedding of the Clausemate contract-extraction system:

* the Response Parser (embedded from the JSON-parsing code quoted in the
  repository's prompt gap analysis),
* the Security Scanner, Schema Validator & Normalizer and Escalation
  Controller (modelled from the spec, since the backend execution scripts
  are not part of the repository snapshot — only the directive
  `directives/extract_contract.md` describes them),
* the frontend upload page, extraction-review component and API client
  (embedded from `frontend/src` and the page/library sources).

Numbers are modelled as `ℚ` (JS numbers in this code are small decimals;
floating-point rounding plays no role in any property considered here).
-/

namespace Contracts

/-! ## JSON values and a JSON parser

Model of Python `json.loads` restricted to the JSON grammar (objects,
arrays, strings with the standard escapes, numbers with optional fraction
and exponent, booleans, null).  `jsonParse` succeeds only when the whole
input — modulo surrounding whitespace — is one JSON value, as `json.loads`
does. -/

inductive Json where
  | null : Json
  | bool (b : Bool) : Json
  | num (q : ℚ) : Json
  | str (s : String) : Json
  | arr (elems : List Json) : Json
  | obj (members : List (String × Json)) : Json
deriving Repr

def isWs (c : Char) : Bool :=
  c = ' ' || c = '\t' || c = '\n' || c = '\r'

def skipWs : List Char → List Char
  | [] => []
  | c :: cs => if isWs c then skipWs cs else c :: cs

/-- Decode one escape character (after a backslash) inside a JSON string. -/
def unescapeChar (c : Char) : Option Char :=
  match c with
  | '"' => some '"'
  | '\\' => some '\\'
  | '/' => some '/'
  | 'b' => some (Char.ofNat 8)
  | 'f' => some (Char.ofNat 12)
  | 'n' => some '\n'
  | 'r' => some '\r'
  | 't' => some '\t'
  | _ => none

def hexVal (c : Char) : Option ℕ :=
  if c.isDigit then some (c.toNat - 48)
  else if 'a' ≤ c ∧ c ≤ 'f' then some (c.toNat - 87)
  else if 'A' ≤ c ∧ c ≤ 'F' then some (c.toNat - 55)
  else none

/-- Read the characters of a JSON string body up to the closing quote. -/
def strChars : List Char → Option (List Char × List Char)
  | [] => none
  | '"' :: rest => some ([], rest)
  | '\\' :: 'u' :: h1 :: h2 :: h3 :: h4 :: rest =>
    match hexVal h1, hexVal h2, hexVal h3, hexVal h4 with
    | some a, some b, some c, some d =>
      (strChars rest).map fun p =>
        (Char.ofNat (((a * 16 + b) * 16 + c) * 16 + d) :: p.1, p.2)
    | _, _, _, _ => none
  | '\\' :: e :: rest =>
    match unescapeChar e with
    | some c => (strChars rest).map fun p => (c :: p.1, p.2)
    | none => none
  | c :: rest => (strChars rest).map fun p => (c :: p.1, p.2)

def digitsToNat (ds : List Char) : ℕ :=
  ds.foldl (fun n c => 10 * n + (c.toNat - 48)) 0

/-- `10 ^ e` in `ℚ` for an integer exponent. -/
def pow10 (e : ℤ) : ℚ :=
  match e with
  | .ofNat n => (10 : ℚ) ^ n
  | .negSucc n => 1 / (10 : ℚ) ^ (n + 1)

/-- Assemble a rational from sign, integer digits, fraction digits and
exponent, as the JSON number grammar dictates. -/
def mkJsonNum (neg : Bool) (ip fp : List Char) (ex : ℤ) : ℚ :=
  let mag : ℚ :=
    ((digitsToNat ip : ℚ) + (digitsToNat fp : ℚ) / (10 : ℚ) ^ fp.length) * pow10 ex
  if neg then -mag else mag

/-- Parse the optional exponent part `e±ddd`. -/
def parseExpPart (s : List Char) : ℤ × List Char :=
  match s with
  | 'e' :: '+' :: t =>
    let p := t.span Char.isDigit
    if p.1 = [] then (0, s) else ((digitsToNat p.1 : ℤ), p.2)
  | 'e' :: '-' :: t =>
    let p := t.span Char.isDigit
    if p.1 = [] then (0, s) else (-(digitsToNat p.1 : ℤ), p.2)
  | 'e' :: t =>
    let p := t.span Char.isDigit
    if p.1 = [] then (0, s) else ((digitsToNat p.1 : ℤ), p.2)
  | 'E' :: '+' :: t =>
    let p := t.span Char.isDigit
    if p.1 = [] then (0, s) else ((digitsToNat p.1 : ℤ), p.2)
  | 'E' :: '-' :: t =>
    let p := t.span Char.isDigit
    if p.1 = [] then (0, s) else (-(digitsToNat p.1 : ℤ), p.2)
  | 'E' :: t =>
    let p := t.span Char.isDigit
    if p.1 = [] then (0, s) else ((digitsToNat p.1 : ℤ), p.2)
  | _ => (0, s)

/-- Parse a JSON number at the head of the input. -/
def parseNum (s : List Char) : Option (Json × List Char) :=
  let negp : Bool × List Char :=
    match s with
    | '-' :: t => (true, t)
    | _ => (false, s)
  let ipp := negp.2.span Char.isDigit
  if ipp.1 = [] then none
  else
    let fpp : List Char × List Char :=
      match ipp.2 with
      | '.' :: t =>
        let q := t.span Char.isDigit
        if q.1 = [] then ([], ipp.2) else q
      | _ => ([], ipp.2)
    let exp := parseExpPart fpp.2
    some (.num (mkJsonNum negp.1 ipp.1 fpp.1 exp.1), exp.2)

mutual

/-- Fuel-indexed JSON value parser; consumes leading whitespace. -/
def parseVal : ℕ → List Char → Option (Json × List Char)
  | 0, _ => none
  | fuel + 1, s =>
    match skipWs s with
    | 'n' :: 'u' :: 'l' :: 'l' :: rest => some (.null, rest)
    | 't' :: 'r' :: 'u' :: 'e' :: rest => some (.bool true, rest)
    | 'f' :: 'a' :: 'l' :: 's' :: 'e' :: rest => some (.bool false, rest)
    | '"' :: rest => (strChars rest).map fun p => (.str (String.mk p.1), p.2)
    | '[' :: rest => (parseArrElems fuel rest).map fun p => (.arr p.1, p.2)
    | '{' :: rest => (parseObjMembers fuel rest).map fun p => (.obj p.1, p.2)
    | t => parseNum t

/-- Elements of a JSON array after the opening bracket. -/
def parseArrElems : ℕ → List Char → Option (List Json × List Char)
  | 0, _ => none
  | fuel + 1, s =>
    match skipWs s with
    | ']' :: rest => some ([], rest)
    | t =>
      match parseVal fuel t with
      | none => none
      | some (v, rest) =>
        match skipWs rest with
        | ',' :: rest2 =>
          (parseArrElems fuel rest2).map fun p => (v :: p.1, p.2)
        | ']' :: rest2 => some ([v], rest2)
        | _ => none

/-- Members of a JSON object after the opening brace. -/
def parseObjMembers : ℕ → List Char → Option (List (String × Json) × List Char)
  | 0, _ => none
  | fuel + 1, s =>
    match skipWs s with
    | '}' :: rest => some ([], rest)
    | '"' :: t =>
      match strChars t with
      | none => none
      | some (key, rest) =>
        match skipWs rest with
        | ':' :: rest2 =>
          match parseVal fuel rest2 with
          | none => none
          | some (v, rest3) =>
            match skipWs rest3 with
            | ',' :: rest4 =>
              (parseObjMembers fuel rest4).map fun p =>
                ((String.mk key, v) :: p.1, p.2)
            | '}' :: rest4 => some ([(String.mk key, v)], rest4)
            | _ => none
        | _ => none
    | _ => none

end

/-- `json.loads`: parse the whole input (modulo surrounding whitespace) as
one JSON value, failing on any trailing garbage. -/
def jsonParse (s : String) : Option Json :=
  match parseVal (2 * s.data.length + 2) s.data with
  | some (j, rest) => if skipWs rest = [] then some j else none
  | none => none

/-! ## The Response Parser, as implemented

Embedded from the code quoted in the gap-analysis report (section
"Output Format Fragility", `Current JSON Parsing`):

```python
try:
    result = json.loads(response_text)
except json.JSONDecodeError:
    json_match = re.search(r"\x7b[\s\S]*\x7d", response_text)
```

The regex is greedy: when it matches at all, the match runs from the first
opening brace (that has some closing brace after it) to the last closing
brace of the whole text. -/

/-- The span matched by the greedy regex: from the first `{` to the last
`}` of the text, provided that `}` comes after that `{`. -/
def greedySpan (s : List Char) : Option (List Char) :=
  let revSpan :=
    ((s.dropWhile fun c => !(c = '{')).reverse.dropWhile fun c => !(c = '}'))
  if revSpan = [] then none else some revSpan.reverse

/-- The Response Parser as implemented: direct `json.loads`, then a retry
on the greedy-regex brace span. -/
def parseResponse (raw : String) : Option Json :=
  match jsonParse raw with
  | some j => some j
  | none =>
    match greedySpan raw.data with
    | some span => jsonParse (String.mk span)
    | none => none

/-! ## The Response Parser as the spec describes it

Modelled from the spec: "attempt direct JSON parse; on failure, strip a
leading/trailing markdown code fence and retry; on failure again, search
for the first balanced `{...}` span via bracket counting (not naive regex
greediness) and retry; if all three attempts fail, raise ParseError
carrying the original raw text".  Written only to be compared against the
implemented `parseResponse` (claim C2). -/

def wsTrim (s : List Char) : List Char :=
  ((s.dropWhile isWs).reverse.dropWhile isWs).reverse

/-- Drop a leading code-fence line (```` ```json ```` or ```` ``` ````). -/
def dropFenceHead (s : List Char) : List Char :=
  match s with
  | '`' :: '`' :: '`' :: t => (t.dropWhile (fun c => !(c = '\n'))).drop 1
  | _ => s

/-- Drop a trailing ```` ``` ```` fence. -/
def dropFenceTail (s : List Char) : List Char :=
  match s.reverse with
  | '`' :: '`' :: '`' :: t => t.reverse
  | _ => s

/-- Strip a leading/trailing markdown code fence. -/
def stripCodeFence (raw : String) : String :=
  String.mk (wsTrim (dropFenceTail (dropFenceHead (wsTrim raw.data))))

/-- Scan for the closing brace matching an already-seen opening brace,
keeping the consumed characters (reversed) in `acc`. -/
def takeBalanced : ℕ → List Char → List Char → Option (List Char)
  | _, [], _ => none
  | depth, c :: cs, acc =>
    if c = '{' then takeBalanced (depth + 1) cs (c :: acc)
    else if c = '}' then
      if depth = 1 then some (c :: acc).reverse
      else takeBalanced (depth - 1) cs (c :: acc)
    else takeBalanced depth cs (c :: acc)

/-- The first balanced `{...}` span of the text, by bracket counting. -/
def firstBalancedSpan (s : List Char) : Option (List Char) :=
  match s.dropWhile (fun c => !(c = '{')) with
  | [] => none
  | suf => takeBalanced 0 suf []

/-- The three-tier Response Parser the spec describes (§4.4):
direct parse, code-fence strip, balanced-brace span; `ParseError` carries
the original raw text. -/
def parseResponseSpec (raw : String) : Except String Json :=
  match jsonParse raw with
  | some j => .ok j
  | none =>
    match jsonParse (stripCodeFence raw) with
    | some j => .ok j
    | none =>
      match firstBalancedSpan raw.data with
      | some span =>
        match jsonParse (String.mk span) with
        | some j => .ok j
        | none => .error raw
      | none => .error raw

/-! ## Pipeline data model

Modelled from the spec (§3): the extraction pipeline's own code (the
execution layer of the three-layer architecture) is absent from the
repository snapshot; the data model below follows the spec's field list,
which matches the Output Fields table of `directives/extract_contract.md`. -/

inductive ContractType where
  | insurance | utility | subscription | rental | saas | service | other
deriving DecidableEq, Repr

inductive Currency where
  | USD | EUR | GBP | CAD | AUD | JPY
deriving DecidableEq, Repr

inductive PaymentFrequency where
  | monthly | annual | quarterly | oneTime | other
deriving DecidableEq, Repr

inductive Complexity where
  | low | medium | high
deriving DecidableEq, Repr

inductive Severity where
  | high | medium | low
deriving DecidableEq, Repr

structure Party where
  name : String
  role : String
deriving DecidableEq, Repr

structure Risk where
  title : String
  description : String
  severity : Severity
deriving DecidableEq, Repr

structure DocAnalyzed where
  filename : String
  document_type : String
  summary : String
deriving DecidableEq, Repr

structure SecurityFinding where
  kind : String
  detail : String
  severity : Severity
deriving DecidableEq, Repr

inductive DocumentType where
  | main_agreement | sow | terms_conditions | amendment | addendum
  | exhibit | schedule | other
deriving DecidableEq, Repr

/-- Modelled from the spec: `DocumentInput` (§3) — raw bytes plus declared
type, label and filename. -/
structure DocumentInput where
  bytes : List ℕ
  declared_type : DocumentType
  label : String
  filename : String
deriving DecidableEq, Repr

/-- The final `ExtractionResult` contract (§3); `warnings` holds the
non-fatal `ValidationWarning`s the spec accumulates on the result (§7). -/
structure ExtractionResult where
  provider_name : Option String
  contract_nickname : Option String
  contract_type : ContractType
  monthly_cost : Option ℚ
  annual_cost : Option ℚ
  currency : Currency
  payment_frequency : Option PaymentFrequency
  start_date : Option String
  end_date : Option String
  auto_renewal : Option Bool
  cancellation_notice_days : Option ℤ
  key_terms : List String
  parties : List Party
  risks : List Risk
  confidence : ℚ
  complexity : Complexity
  complexity_reasons : List String
  documents_analyzed : List DocAnalyzed
  escalated : Bool
  escalation_model : Option String
  security_findings : List SecurityFinding
  warnings : List String
deriving DecidableEq, Repr

/-- A risk as the model reports it, with a free-form severity string. -/
structure RawRisk where
  title : String
  description : String
  severity : String
deriving DecidableEq, Repr

/-- The dict produced by the Response Parser from a model response, before
validation/normalization; absent and JSON-null fields are both `none`. -/
structure RawExtraction where
  provider_name : Option String
  contract_nickname : Option String
  contract_type : Option String
  monthly_cost : Option ℚ
  annual_cost : Option ℚ
  currency : Option String
  payment_frequency : Option String
  start_date : Option String
  end_date : Option String
  auto_renewal : Option Bool
  cancellation_notice_days : Option ℤ
  key_terms : List String
  parties : List Party
  risks : List RawRisk
  confidence : ℚ
  complexity : Option String
  complexity_reasons : List String
  documents_analyzed : List DocAnalyzed
deriving DecidableEq, Repr

/-! ## Security Scanner

Modelled from the spec (§4.1): `scan_inputs` matches filenames/labels
against a maintained list of injection signatures; any match yields a
`SecurityFinding` with kind `"suspicious_filename"` and severity medium.
Matching is on normalized text (lower case, separators as spaces), since
the signatures are "phrases resembling" the listed ones. -/

def injectionSignatures : List String :=
  ["ignore previous instructions", "ignore all previous", "system:",
   "you are now", "disregard the above"]

def normalizeScanText (s : String) : String :=
  String.mk (s.data.map fun c =>
    if c = '_' ∨ c = '-' then ' ' else c.toLower)

/-- `needle` occurs as a contiguous substring of `hay`. -/
def containsSeq (needle hay : List Char) : Bool :=
  hay.tails.any fun t => needle.isPrefixOf t

def matchesSignature (text : String) : Bool :=
  injectionSignatures.any fun sig =>
    containsSeq sig.data (normalizeScanText text).data

/-- Modelled from the spec: `scan_inputs(bundle)` — one
`suspicious_filename` finding (severity medium) per document whose
filename or label matches an injection signature. -/
def scanInputs (bundle : List DocumentInput) : List SecurityFinding :=
  bundle.filterMap fun d =>
    if matchesSignature d.filename ∨ matchesSignature d.label then
      some ⟨"suspicious_filename", d.filename, .medium⟩
    else none

/-! ## Schema Validator & Normalizer

Modelled from the spec (§4.5) and the directive's normalization step:
type/enum coercion, confidence finalization with the security-finding
caps of §4.1, the provider-name cap, the cost cross-field check, and the
hard-floor rejection.  Date normalization is the identity here (no claim
touches it). -/

def parseContractType (s : String) : Option ContractType :=
  if s = "insurance" then some .insurance
  else if s = "utility" then some .utility
  else if s = "subscription" then some .subscription
  else if s = "rental" then some .rental
  else if s = "saas" then some .saas
  else if s = "service" then some .service
  else if s = "other" then some .other
  else none

def parseCurrency (s : String) : Option Currency :=
  if s = "USD" then some .USD
  else if s = "EUR" then some .EUR
  else if s = "GBP" then some .GBP
  else if s = "CAD" then some .CAD
  else if s = "AUD" then some .AUD
  else if s = "JPY" then some .JPY
  else none

def parsePaymentFrequency (s : String) : Option PaymentFrequency :=
  if s = "monthly" then some .monthly
  else if s = "annual" then some .annual
  else if s = "quarterly" then some .quarterly
  else if s = "one-time" then some .oneTime
  else if s = "other" then some .other
  else none

def parseSeverity (s : String) : Option Severity :=
  if s = "high" then some .high
  else if s = "medium" then some .medium
  else if s = "low" then some .low
  else none

def parseComplexity (s : String) : Option Complexity :=
  if s = "low" then some .low
  else if s = "medium" then some .medium
  else if s = "high" then some .high
  else none

/-- Out-of-enum risk severities are coerced to medium (§3 invariant). -/
def normalizeRisk (r : RawRisk) : Risk :=
  ⟨r.title, r.description, (parseSeverity r.severity).getD .medium⟩

/-- A normalization warning for every coerced risk severity (§3: coerced,
"and a normalization-warning is recorded (not discarded)"). -/
def severityWarnings (rs : List RawRisk) : List String :=
  rs.filterMap fun r =>
    if parseSeverity r.severity = none then
      some ("normalization: risk severity coerced to medium: " ++ r.severity)
    else none

/-- Cross-field check (§4.5): both costs present and annual outside
`[11×, 13×]` of monthly flags a non-fatal consistency warning. -/
def costConsistencyWarnings (m a : Option ℚ) : List String :=
  match m, a with
  | some mc, some ac =>
    if 11 * mc ≤ ac ∧ ac ≤ 13 * mc then []
    else ["consistency: annual_cost is not within 11x-13x of monthly_cost"]
  | _, _ => []

/-- The cap a single finding puts on confidence (§4.1): high findings cap
at 0.4, medium findings at 0.6, always by taking the minimum. -/
def applyFindingCap (c : ℚ) (f : SecurityFinding) : ℚ :=
  match f.severity with
  | .high => min c (2/5)
  | .medium => min c (3/5)
  | .low => c

/-- Fold the security-finding caps over the model-reported confidence. -/
def applyCaps (c : ℚ) (fs : List SecurityFinding) : ℚ :=
  fs.foldl applyFindingCap c

/-- Confidence finalization (§4.5): model confidence, security caps, and
a 0.5 cap when the required `provider_name` is null. -/
def finalizeConfidence (c : ℚ) (fs : List SecurityFinding)
    (provName : Option String) : ℚ :=
  let c1 := applyCaps c fs
  match provName with
  | none => min c1 (1/2)
  | some _ => c1

inductive ExtractFail where
  | extractionFailed
deriving DecidableEq, Repr

/-- Modelled from the spec: `validate_and_normalize(dict, findings)`
(§4.5) — hard-floor rejection when provider name, contract type and both
costs are all absent; otherwise enum coercion, severity coercion with
warnings, cost cross-check and confidence finalization.  The result
starts unescalated; the Escalation Controller sets the escalation
fields. -/
def validateAndNormalize (d : RawExtraction) (findings : List SecurityFinding) :
    Except ExtractFail ExtractionResult :=
  if d.provider_name = none ∧ d.contract_type = none ∧
      d.monthly_cost = none ∧ d.annual_cost = none then
    .error .extractionFailed
  else
    .ok {
      provider_name := d.provider_name
      contract_nickname := d.contract_nickname
      contract_type :=
        match d.contract_type with
        | some s => (parseContractType s).getD .other
        | none => .other
      monthly_cost := d.monthly_cost
      annual_cost := d.annual_cost
      currency :=
        match d.currency with
        | some s => (parseCurrency s).getD .USD
        | none => .USD
      payment_frequency := d.payment_frequency.bind parsePaymentFrequency
      start_date := d.start_date
      end_date := d.end_date
      auto_renewal := d.auto_renewal
      cancellation_notice_days := d.cancellation_notice_days
      key_terms := d.key_terms
      parties := d.parties
      risks := d.risks.map normalizeRisk
      confidence := finalizeConfidence d.confidence findings d.provider_name
      complexity :=
        match d.complexity with
        | some s => (parseComplexity s).getD .medium
        | none => .medium
      complexity_reasons := d.complexity_reasons
      documents_analyzed := d.documents_analyzed
      escalated := false
      escalation_model := none
      security_findings := findings
      warnings := severityWarnings d.risks ++
        costConsistencyWarnings d.monthly_cost d.annual_cost
    }

/-! ## Escalation Controller

Modelled from the spec (§4.6) and the directive's Smart AI Routing:
Fast tier is Gemini 3 Flash; escalation runs Gemini 2.5 Pro, falling back
to Claude Sonnet 4.  Provider invocation and response parsing are
collapsed into one tier outcome; a ParseError follows the same fallback
path as a ProviderError (§7). -/

inductive ProviderError where
  | rateLimited | timeout | unavailable | malformedResponse
deriving DecidableEq, Repr

def thoroughModelName : String := "gemini-2.5-pro"

def fallbackModelName : String := "claude-sonnet-4"

/-- Escalation trigger (§4.6, directive "Escalation Triggers"), computed
purely from the Fast-tier normalized result. -/
def shouldEscalate (r : ExtractionResult) : Bool :=
  (decide (r.contract_type = .rental) || decide (r.contract_type = .insurance) ||
    decide (r.contract_type = .service)) ||
  decide (r.confidence < 7/10) ||
  decide (r.complexity = .high) ||
  decide (6 ≤ r.key_terms.length)

/-- Outcomes of the three provider calls, as oracles: raw model output
(already parsed to a dict) or a provider failure. -/
structure TierOutcomes where
  fast : Except ProviderError RawExtraction
  thorough : Except ProviderError RawExtraction
  fallback : Except ProviderError RawExtraction
deriving Repr

/-- Validate one escalation tier's outcome; a provider failure or a
validation rejection makes the tier unusable. -/
def tierResult (findings : List SecurityFinding)
    (o : Except ProviderError RawExtraction) : Option ExtractionResult :=
  match o with
  | .error _ => none
  | .ok raw =>
    match validateAndNormalize raw findings with
    | .ok r => some r
    | .error _ => none

/-- Modelled from the spec: the escalation phase (§4.6).  Thorough tier
first; on failure the fallback tier with the identical payload; if both
fail, the Fast-tier result is returned with `escalated := false` and a
recorded warning rather than failing the request. -/
def escalationPhase (fastRes : ExtractionResult)
    (findings : List SecurityFinding)
    (thorough fallback : Except ProviderError RawExtraction) :
    ExtractionResult :=
  match tierResult findings thorough with
  | some r =>
    { r with escalated := true, escalation_model := some thoroughModelName }
  | none =>
    match tierResult findings fallback with
    | some r =>
      { r with escalated := true, escalation_model := some fallbackModelName }
    | none =>
      { fastRes with
          escalated := false
          warnings := fastRes.warnings ++
            ["escalation failed: both thorough tiers unavailable, returning fast-tier result"] }

/-- Modelled from the spec: the whole pipeline after parsing (§4.6).
A Fast-tier provider failure, or the validator's hard floor on the
Fast-tier result, fails the pipeline; otherwise the escalation decision
is evaluated once on the normalized Fast-tier result. -/
def runPipeline (o : TierOutcomes) (findings : List SecurityFinding) :
    Except ExtractFail ExtractionResult :=
  match o.fast with
  | .error _ => .error .extractionFailed
  | .ok rawFast =>
    match validateAndNormalize rawFast findings with
    | .error e => .error e
    | .ok fastRes =>
      if shouldEscalate fastRes then
        .ok (escalationPhase fastRes findings o.thorough o.fallback)
      else
        .ok fastRes

/-! ## Frontend: `ExtractionReview` (components/ContractQA.tsx)

The runtime extraction record the review component receives from the API:
the fields of the `ExtractionResult` interface of `types/index.ts`, plus
the `escalated` / `escalation_model` values the component reads from the
same JSON payload. -/

namespace Frontend

structure ExtractionResult where
  provider_name : Option String
  contract_type : Option String
  monthly_cost : Option ℚ
  annual_cost : Option ℚ
  currency : String
  payment_frequency : Option String
  start_date : Option String
  end_date : Option String
  auto_renewal : Option Bool
  cancellation_notice_days : Option ℤ
  key_terms : List String
  parties : List Contracts.Party
  risks : List Contracts.Risk
  confidence : ℚ
  escalated : Bool
  escalation_model : Option String
deriving DecidableEq, Repr

/-- The conditionally rendered pieces of the `ExtractionReview` markup
that depend on the extraction data. -/
inductive ReviewNode where
  | header
  | enhancedBadge (title : String)
  | confidenceSpan (pct : ℤ)
  | reviewBanner
  | escalatedInfo (modelLabel : String)
  | fieldGrid
  | keyTermsSection (terms : List String)
  | actions (saveDisabled : Bool)
deriving DecidableEq, Repr

/-- `Math.round (confidence * 100)`. -/
def confidencePct (confidence : ℚ) : ℤ :=
  ⌊confidence * 100 + 1/2⌋

/-- The `ExtractionReview` component's initial render (the editable state
starts as the extraction), in document order:

* the "Enhanced" badge renders when `extraction.escalated` is truthy;
* the yellow review banner renders when `confidence < 0.6`;
* the purple enhanced-analysis banner also renders when
  `extraction.escalated`, naming Claude Sonnet 4 exactly when
  `escalation_model === 'claude-sonnet-4'` and Gemini 2.5 Pro otherwise;
* the key-terms section renders when `key_terms` is non-empty;
* Save is disabled when saving or `provider_name` is falsy. -/
def renderReview (extraction : ExtractionResult) (confidence : ℚ)
    (saving : Bool) : List ReviewNode :=
  [.header] ++
  (if extraction.escalated then
    [.enhancedBadge
      ("Enhanced with " ++ (extraction.escalation_model.getD "advanced model"))]
  else []) ++
  [.confidenceSpan (confidencePct confidence)] ++
  (if confidence < 3/5 then [.reviewBanner] else []) ++
  (if extraction.escalated then
    [.escalatedInfo
      (if extraction.escalation_model = some "claude-sonnet-4" then
        "Claude Sonnet 4"
      else "Gemini 2.5 Pro")]
  else []) ++
  [.fieldGrid] ++
  (if extraction.key_terms.length > 0 then
    [.keyTermsSection extraction.key_terms]
  else []) ++
  [.actions (saving ||
    (match extraction.provider_name with
     | none => true
     | some s => s = ""))]

/-- The Upload page passes `extraction.confidence` as the `confidence`
prop of `ExtractionReview`. -/
def renderReviewFromUpload (extraction : ExtractionResult) (saving : Bool) :
    List ReviewNode :=
  renderReview extraction extraction.confidence saving

end Frontend

/-! ## Frontend: the Upload page `handleFile` handler -/

namespace UploadPage

/-- `String.prototype.toLowerCase()`, character by character. -/
def jsToLower (s : String) : String := ⟨s.data.map Char.toLower⟩

/-- `String.prototype.endsWith(suf)`. -/
def jsEndsWith (s suf : String) : Bool := suf.data.isSuffixOf s.data

/-- The state updates and calls `handleFile` makes, in order. -/
inductive UploadAction where
  | setError (msg : Option String)
  | setFile (name : String)
  | setExtractionNull
  | setExtracting (b : Bool)
  | invokeExtract (name : String)
  | setExtraction
deriving DecidableEq, Repr

structure FileInfo where
  name : String
  size : ℕ
deriving DecidableEq, Repr

/-- `handleFile` from the Upload page: a non-`.pdf` name (case
insensitive) or a size above 10 MiB sets an error message and returns
before extraction; otherwise the file is accepted, errors cleared and
`extractContract` invoked, whose outcome (`api`) sets the extraction or
an error, with the extracting flag cleared in `finally`. -/
def handleFile (f : FileInfo)
    (api : Except String Frontend.ExtractionResult) : List UploadAction :=
  if ¬ (jsEndsWith (jsToLower f.name) ".pdf") then
    [.setError (some "Please upload a PDF file")]
  else if 10 * 1024 * 1024 < f.size then
    [.setError (some "File size must be less than 10MB")]
  else
    [.setFile f.name, .setError none, .setExtractionNull,
     .setExtracting true, .invokeExtract f.name] ++
    (match api with
     | .ok _ => [.setExtraction]
     | .error e => [.setError (some e)]) ++
    [.setExtracting false]

end UploadPage

/-! ## Frontend: `confirmContracts` query parameters (lib/api.ts) -/

namespace Api

/-- A query-string value, kept as the typed value the code stringifies
(`String(x)` / `JSON.stringify(x)`). -/
inductive ParamValue where
  | str (s : String)
  | num (q : ℚ)
  | boolOrNull (b : Option Bool)
  | intVal (n : ℤ)
  | strList (xs : List String)
  | partyList (xs : List Contracts.Party)
  | riskList (xs : List Contracts.Risk)
deriving DecidableEq, Repr

/-- The `Partial<ExtractionResult>` passed to `confirmContracts`.  An
absent-or-null field is `none` (both are falsy under the code's truthiness
tests); `auto_renewal` distinguishes absent (`none`) from `null`
(`some none`) because the code tests it against `undefined`. -/
structure ConfirmData where
  provider_name : Option String
  contract_nickname : Option String
  contract_type : Option String
  monthly_cost : Option ℚ
  annual_cost : Option ℚ
  currency : Option String
  start_date : Option String
  end_date : Option String
  auto_renewal : Option (Option Bool)
  cancellation_notice_days : Option ℤ
  key_terms : Option (List String)
  parties : Option (List Contracts.Party)
  risks : Option (List Contracts.Risk)
deriving DecidableEq, Repr

/-- JS truthiness of an optional string: `undefined`, `null` and `""` are
falsy. -/
def truthyStr (v : Option String) : Bool :=
  match v with
  | none => false
  | some s => decide (s ≠ "")

/-- JS truthiness of an optional number: `undefined`, `null` and `0` are
falsy. -/
def truthyNum (v : Option ℚ) : Bool :=
  match v with
  | none => false
  | some q => decide (q ≠ 0)

def truthyInt (v : Option ℤ) : Bool :=
  match v with
  | none => false
  | some n => decide (n ≠ 0)

/-- `xs && xs.length > 0` for an optional array: arrays are always
truthy, so the length test decides. -/
def truthyList {α : Type} (v : Option (List α)) : Bool :=
  match v with
  | none => false
  | some xs => decide (xs.length > 0)

/-- The `URLSearchParams` built by `confirmContracts`: one `append` per
`if`, in source order. -/
def confirmParams (d : ConfirmData) : List (String × ParamValue) :=
  (if truthyStr d.provider_name then
    [("provider_name", ParamValue.str (d.provider_name.getD ""))] else []) ++
  (if truthyStr d.contract_nickname then
    [("contract_nickname", ParamValue.str (d.contract_nickname.getD ""))] else []) ++
  (if truthyStr d.contract_type then
    [("contract_type", ParamValue.str (d.contract_type.getD ""))] else []) ++
  (if truthyNum d.monthly_cost then
    [("monthly_cost", ParamValue.num (d.monthly_cost.getD 0))] else []) ++
  (if truthyNum d.annual_cost then
    [("annual_cost", ParamValue.num (d.annual_cost.getD 0))] else []) ++
  (if truthyStr d.currency then
    [("currency", ParamValue.str (d.currency.getD ""))] else []) ++
  (if truthyStr d.start_date then
    [("start_date", ParamValue.str (d.start_date.getD ""))] else []) ++
  (if truthyStr d.end_date then
    [("end_date", ParamValue.str (d.end_date.getD ""))] else []) ++
  (if d.auto_renewal.isSome then
    [("auto_renewal", ParamValue.boolOrNull (d.auto_renewal.getD none))] else []) ++
  (if truthyInt d.cancellation_notice_days then
    [("cancellation_notice_days", ParamValue.intVal (d.cancellation_notice_days.getD 0))] else []) ++
  (if truthyList d.key_terms then
    [("key_terms", ParamValue.strList (d.key_terms.getD []))] else []) ++
  (if truthyList d.parties then
    [("parties", ParamValue.partyList (d.parties.getD []))] else []) ++
  (if truthyList d.risks then
    [("risks", ParamValue.riskList (d.risks.getD []))] else [])

/-- The keys actually appended to the confirm request. -/
def confirmKeys (d : ConfirmData) : List String :=
  (confirmParams d).map Prod.fst

end Api

/-! ## Auxiliary definitions for the theorems -/

/-- The numeric cap a finding severity induces (§4.1); low-severity
findings induce no cap, i.e. the vacuous cap 1. -/
def sevCap : Severity → ℚ
  | .high => 2/5
  | .medium => 3/5
  | .low => 1

/-- The strongest cap induced by a list of findings. -/
def minCap (fs : List SecurityFinding) : ℚ :=
  fs.foldl (fun m f => min m (sevCap f.severity)) 1

/-- Scenario B's document: filename `ignore_previous_instructions.pdf`. -/
def suspiciousDoc : DocumentInput :=
  { bytes := []
    declared_type := .main_agreement
    label := "Main agreement"
    filename := "ignore_previous_instructions.pdf" }

/-- A benign parsed Fast-tier output with low model confidence (0.5), as
in Scenario C; used as a concrete input by several witnesses. -/
def sampleRawLowConf : RawExtraction :=
  { provider_name := some "Acme"
    contract_nickname := some "Office Lease 2025"
    contract_type := some "saas"
    monthly_cost := some 100
    annual_cost := some 1200
    currency := some "USD"
    payment_frequency := some "monthly"
    start_date := some "2025-01-01"
    end_date := none
    auto_renewal := some true
    cancellation_notice_days := some 30
    key_terms := ["Auto-renewal: 12 months unless 60 days notice"]
    parties := [⟨"Acme", "provider"⟩]
    risks := [⟨"Auto-renewal", "renews silently", "medium"⟩]
    confidence := 1/2
    complexity := some "low"
    complexity_reasons := []
    documents_analyzed := [] }

/-- A parsed rental-contract output; its contract type alone trips the
escalation trigger. -/
def sampleRawRental : RawExtraction :=
  { sampleRawLowConf with contract_type := some "rental", confidence := 1 }

/-- A parsed output with every recognizable field absent (Scenario D). -/
def sampleRawEmpty : RawExtraction :=
  { provider_name := none
    contract_nickname := none
    contract_type := none
    monthly_cost := none
    annual_cost := none
    currency := none
    payment_frequency := none
    start_date := none
    end_date := none
    auto_renewal := none
    cancellation_notice_days := none
    key_terms := []
    parties := []
    risks := []
    confidence := 1/2
    complexity := none
    complexity_reasons := []
    documents_analyzed := [] }

/-- A placeholder result, only used as the `getD` default when reading a
pipeline result that provably exists. -/
def dummyResult : ExtractionResult :=
  { provider_name := none
    contract_nickname := none
    contract_type := .other
    monthly_cost := none
    annual_cost := none
    currency := .USD
    payment_frequency := none
    start_date := none
    end_date := none
    auto_renewal := none
    cancellation_notice_days := none
    key_terms := []
    parties := []
    risks := []
    confidence := 0
    complexity := .medium
    complexity_reasons := []
    documents_analyzed := []
    escalated := false
    escalation_model := none
    security_findings := []
    warnings := [] }

/-- A normalized Fast-tier result that trips no escalation trigger. -/
def sampleCalmResult : ExtractionResult :=
  { dummyResult with
      provider_name := some "Acme"
      contract_type := .saas
      confidence := 9/10
      complexity := .low
      key_terms := ["one", "two"] }

/-- A frontend extraction record with low confidence and an escalated
analysis, as the review component can receive it. -/
def Frontend.sampleReviewExtraction : Frontend.ExtractionResult :=
  { provider_name := some "Acme"
    contract_type := some "rental"
    monthly_cost := some 1200
    annual_cost := none
    currency := "USD"
    payment_frequency := some "monthly"
    start_date := none
    end_date := none
    auto_renewal := some true
    cancellation_notice_days := none
    key_terms := []
    parties := []
    risks := []
    confidence := 0
    escalated := true
    escalation_model := some "gemini-2.5-pro" }

/-- Confirm data whose numeric fields are 0, whose lists are empty and
whose auto-renewal is `false`. -/
def Api.sampleConfirmData : Api.ConfirmData :=
  { provider_name := some "Acme"
    contract_nickname := none
    contract_type := none
    monthly_cost := some 0
    annual_cost := none
    currency := none
    start_date := none
    end_date := none
    auto_renewal := some (some false)
    cancellation_notice_days := some 0
    key_terms := some []
    parties := none
    risks := some [] }



theorem applyFindingCap_le (c : ℚ) (f : SecurityFinding) :
    applyFindingCap c f ≤ c := by
  rcases f with ⟨k, dt, sev⟩
  cases sev <;> simp [applyFindingCap, min_le_left]

theorem applyCaps_le (fs : List SecurityFinding) :
    ∀ c : ℚ, applyCaps c fs ≤ c := by
  induction fs with
  | nil => intro c; simp [applyCaps]
  | cons f t ih =>
    intro c
    simp only [applyCaps, List.foldl_cons]
    exact le_trans (ih (applyFindingCap c f)) (applyFindingCap_le c f)

theorem sevCap_le_one (s : Severity) : sevCap s ≤ 1 := by
  cases s <;> norm_num [sevCap]

theorem applyFindingCap_eq_min (c : ℚ) (f : SecurityFinding) (hc : c ≤ 1) :
    applyFindingCap c f = min c (sevCap f.severity) := by
  rcases f with ⟨k, dt, sev⟩
  cases sev <;> simp [applyFindingCap, sevCap]
  exact hc

theorem foldl_min_cap (fs : List SecurityFinding) :
    ∀ a : ℚ, a ≤ 1 →
      fs.foldl (fun m f => min m (sevCap f.severity)) a = min a (minCap fs) := by
  induction fs with
  | nil =>
    intro a ha
    simp [minCap]
    exact ha
  | cons g t ih =>
    intro a ha
    simp only [List.foldl_cons]
    rw [ih (min a (sevCap g.severity)) (le_trans (min_le_left _ _) ha)]
    have h1 : minCap (g :: t) = min (min 1 (sevCap g.severity)) (minCap t) := by
      simp only [minCap, List.foldl_cons]
      exact ih (min 1 (sevCap g.severity)) (min_le_left _ _)
    rw [h1, min_eq_right (sevCap_le_one _), min_assoc]

theorem applyCaps_eq_min (fs : List SecurityFinding) :
    ∀ c : ℚ, c ≤ 1 → applyCaps c fs = min c (minCap fs) := by
  induction fs with
  | nil =>
    intro c hc
    simp [applyCaps, minCap]
    exact hc
  | cons g t ih =>
    intro c hc
    simp only [applyCaps, List.foldl_cons] at *
    rw [ih (applyFindingCap c g) (le_trans (applyFindingCap_le c g) hc),
      applyFindingCap_eq_min c g hc]
    have h1 : minCap (g :: t) = min (min 1 (sevCap g.severity)) (minCap t) := by
      simp only [minCap, List.foldl_cons]
      exact foldl_min_cap t (min 1 (sevCap g.severity)) (min_le_left _ _)
    rw [h1, min_eq_right (sevCap_le_one _), min_assoc]

theorem applyCaps_le_of_mem_high (fs : List SecurityFinding) :
    ∀ c : ℚ, ∀ f ∈ fs, f.severity = .high → applyCaps c fs ≤ 2/5 := by
  induction fs with
  | nil => intro c f hf; cases hf
  | cons g t ih =>
    intro c f hf hsev
    simp only [applyCaps, List.foldl_cons]
    rcases List.mem_cons.1 hf with rfl | hmem
    · refine le_trans (applyCaps_le t _) ?_
      simp [applyFindingCap, hsev]
    · exact ih _ f hmem hsev

theorem applyCaps_le_of_mem_medium (fs : List SecurityFinding) :
    ∀ c : ℚ, ∀ f ∈ fs, f.severity = .medium → applyCaps c fs ≤ 3/5 := by
  induction fs with
  | nil => intro c f hf; cases hf
  | cons g t ih =>
    intro c f hf hsev
    simp only [applyCaps, List.foldl_cons]
    rcases List.mem_cons.1 hf with rfl | hmem
    · refine le_trans (applyCaps_le t _) ?_
      simp [applyFindingCap, hsev]
    · exact ih _ f hmem hsev

theorem finalizeConfidence_le (c : ℚ) (fs : List SecurityFinding)
    (p : Option String) : finalizeConfidence c fs p ≤ c := by
  cases p <;> simp only [finalizeConfidence]
  · exact le_trans (min_le_left _ _) (applyCaps_le fs c)
  · exact applyCaps_le fs c

/-- Claim C1: escalation is a pure function of the Fast-tier normalized
result, and it triggers exactly when the contract type is rental,
insurance or service, or confidence is below 0.7, or complexity is high,
or six or more key terms were detected; in particular a result violating
none of those triggers does not escalate. -/
theorem escalation_trigger_characterization (r : ExtractionResult) :
    (shouldEscalate r = true ↔
      ((r.contract_type = .rental ∨ r.contract_type = .insurance ∨
          r.contract_type = .service) ∨
        r.confidence < 7/10 ∨ r.complexity = .high ∨ 6 ≤ r.key_terms.length))
    ∧ (7/10 ≤ r.confidence →
        r.contract_type ≠ .rental → r.contract_type ≠ .insurance →
        r.contract_type ≠ .service → r.complexity ≠ .high →
        r.key_terms.length < 6 →
        shouldEscalate r = false) := by
  constructor
  · simp [shouldEscalate, or_assoc]
  · intro h1 h2 h3 h4 h5 h6
    simp [shouldEscalate, h2, h3, h4, h5, not_lt.2 h1, not_le.2 h6]

theorem escalation_trigger_witness :
    shouldEscalate sampleCalmResult = false :=
  (escalation_trigger_characterization sampleCalmResult).2
    (by norm_num [sampleCalmResult, dummyResult])
    (by simp [sampleCalmResult, dummyResult])
    (by simp [sampleCalmResult, dummyResult])
    (by simp [sampleCalmResult, dummyResult])
    (by simp [sampleCalmResult, dummyResult])
    (by simp [sampleCalmResult, dummyResult])

/-- Claim C3: confidence finalization takes the minimum of the
model-reported confidence and the caps induced by the security findings —
a high finding caps at 0.4, a medium finding at 0.6 — and the suspicious
filename of Scenario B yields exactly one `suspicious_filename` finding
and a final confidence of at most 0.6. -/
theorem confidence_caps_min (c : ℚ) (fs : List SecurityFinding) (hc : c ≤ 1) :
    applyCaps c fs = min c (minCap fs)
    ∧ (∀ s : String, finalizeConfidence c fs (some s) = min c (minCap fs))
    ∧ (∀ f ∈ fs, f.severity = .high → applyCaps c fs ≤ 2/5)
    ∧ (∀ f ∈ fs, f.severity = .medium → applyCaps c fs ≤ 3/5)
    ∧ scanInputs [suspiciousDoc] =
        [⟨"suspicious_filename", "ignore_previous_instructions.pdf", .medium⟩]
    ∧ applyCaps c (scanInputs [suspiciousDoc]) ≤ 3/5 := by
  have hscan : scanInputs [suspiciousDoc] =
      [⟨"suspicious_filename", "ignore_previous_instructions.pdf", .medium⟩] := by
    rfl
  refine ⟨applyCaps_eq_min fs c hc, fun s => ?_, applyCaps_le_of_mem_high fs c,
    applyCaps_le_of_mem_medium fs c, hscan, ?_⟩
  · simp only [finalizeConfidence]
    exact applyCaps_eq_min fs c hc
  · rw [hscan]
    exact applyCaps_le_of_mem_medium _ c _ (List.mem_singleton.2 rfl) rfl

theorem confidence_caps_min_witness :
    applyCaps (9/10) (scanInputs [suspiciousDoc]) ≤ 3/5 :=
  (confidence_caps_min (9/10) (scanInputs [suspiciousDoc]) (by norm_num)).2.2.2.2.2

/-- Claim C4: when provider name and contract type are absent and both
cost fields are null, validation rejects the extraction with
`ExtractionFailed` — it never returns a low-confidence result, and the
pipeline fails accordingly. -/
theorem hard_floor_rejection (d : RawExtraction) (fs : List SecurityFinding)
    (h1 : d.provider_name = none) (h2 : d.contract_type = none)
    (h3 : d.monthly_cost = none) (h4 : d.annual_cost = none) :
    validateAndNormalize d fs = .error .extractionFailed
    ∧ (∀ r, validateAndNormalize d fs ≠ .ok r)
    ∧ ∀ o : TierOutcomes, o.fast = .ok d →
        runPipeline o fs = .error .extractionFailed := by
  have hv : validateAndNormalize d fs = .error .extractionFailed := by
    unfold validateAndNormalize
    rw [if_pos ⟨h1, h2, h3, h4⟩]
  refine ⟨hv, fun r hr => ?_, fun o ho => ?_⟩
  · rw [hv] at hr
    exact Except.noConfusion hr
  · simp only [runPipeline, ho, hv]

theorem hard_floor_rejection_witness :
    validateAndNormalize sampleRawEmpty [] = .error .extractionFailed :=
  (hard_floor_rejection sampleRawEmpty [] rfl rfl rfl rfl).1

/-- Claim C6: for every input dict and every list of security findings,
the confidence of the result produced by `validateAndNormalize` is at
most the model-reported confidence — normalization and security scanning
never increase confidence. -/
theorem confidence_never_increased (d : RawExtraction)
    (fs : List SecurityFinding) (r : ExtractionResult)
    (h : validateAndNormalize d fs = .ok r) :
    r.confidence ≤ d.confidence := by
  unfold validateAndNormalize at h
  split at h
  · exact Except.noConfusion h
  · injection h with h1
    subst h1
    exact finalizeConfidence_le d.confidence fs d.provider_name

theorem confidence_never_increased_witness :
    ((validateAndNormalize sampleRawLowConf
        [⟨"suspicious_filename", "x.pdf", .medium⟩]).toOption.getD
      dummyResult).confidence ≤ sampleRawLowConf.confidence :=
  confidence_never_increased sampleRawLowConf
    [⟨"suspicious_filename", "x.pdf", .medium⟩] _ (by rfl)



theorem validate_ok_unescalated (d : RawExtraction) (fs : List SecurityFinding)
    (r : ExtractionResult) (h : validateAndNormalize d fs = .ok r) :
    r.escalated = false ∧ r.escalation_model = none := by
  unfold validateAndNormalize at h
  split at h
  · exact Except.noConfusion h
  · injection h with h1
    subst h1
    exact ⟨rfl, rfl⟩

/-- Claim C5: when escalation has triggered and both the Thorough and
the Fallback-Thorough providers fail with a `ProviderError`, the
controller returns the Fast-tier result with `escalated := false` and a
recorded warning instead of failing the request. -/
theorem fallback_failure_returns_fast (o : TierOutcomes)
    (fs : List SecurityFinding) (rawFast : RawExtraction)
    (fastRes : ExtractionResult) (e1 e2 : ProviderError)
    (hf : o.fast = .ok rawFast)
    (hv : validateAndNormalize rawFast fs = .ok fastRes)
    (ht : o.thorough = .error e1)
    (hb : o.fallback = .error e2)
    (htrig : shouldEscalate fastRes = true) :
    runPipeline o fs =
      .ok { fastRes with
              escalated := false
              warnings := fastRes.warnings ++
                ["escalation failed: both thorough tiers unavailable, returning fast-tier result"] } := by
  simp only [runPipeline, hf, hv, htrig, if_true]
  simp only [escalationPhase, tierResult, ht, hb]

theorem fallback_failure_returns_fast_witness :
    runPipeline
      { fast := .ok sampleRawRental, thorough := .error .timeout,
        fallback := .error .unavailable } [] =
      .ok { (validateAndNormalize sampleRawRental []).toOption.getD dummyResult with
              escalated := false
              warnings := ((validateAndNormalize sampleRawRental []).toOption.getD
                  dummyResult).warnings ++
                ["escalation failed: both thorough tiers unavailable, returning fast-tier result"] } :=
  fallback_failure_returns_fast
    { fast := .ok sampleRawRental, thorough := .error .timeout,
      fallback := .error .unavailable }
    [] sampleRawRental _ .timeout .unavailable rfl (by rfl) rfl rfl (by rfl)

/-- Claim C7: every `ExtractionResult` the pipeline returns satisfies
the invariant that `escalated = true` implies `escalation_model` is
non-null. -/
theorem escalated_implies_model (o : TierOutcomes)
    (fs : List SecurityFinding) (r : ExtractionResult)
    (h : runPipeline o fs = .ok r) (hesc : r.escalated = true) :
    r.escalation_model.isSome = true := by
  rcases hfast : o.fast with e | rawFast
  · simp only [runPipeline, hfast] at h
    exact Except.noConfusion h
  · rcases hval : validateAndNormalize rawFast fs with e | fastRes
    · simp only [runPipeline, hfast, hval] at h
      exact Except.noConfusion h
    · simp only [runPipeline, hfast, hval] at h
      by_cases htrig : shouldEscalate fastRes = true
      · rw [if_pos htrig] at h
        injection h with h1
        subst h1
        unfold escalationPhase at hesc ⊢
        rcases hth : tierResult fs o.thorough with _ | r1
        · rcases hfb : tierResult fs o.fallback with _ | r2
          · simp only [hth, hfb] at hesc
            exact Bool.noConfusion hesc
          · simp only [hth, hfb]
            rfl
        · simp only [hth]
          rfl
      · rw [if_neg htrig] at h
        injection h with h1
        subst h1
        have h2 := (validate_ok_unescalated rawFast fs _ hval).1
        rw [h2] at hesc
        exact Bool.noConfusion hesc

theorem escalated_implies_model_witness :
    (((runPipeline
        { fast := .ok sampleRawRental, thorough := .ok sampleRawRental,
          fallback := .error .timeout } []).toOption.getD
      dummyResult).escalation_model).isSome = true :=
  escalated_implies_model
    { fast := .ok sampleRawRental, thorough := .ok sampleRawRental,
      fallback := .error .timeout }
    [] _ (by rfl) (by rfl)


theorem truthyNum_iff (v : Option ℚ) :
    Api.truthyNum v = true ↔ ∃ q, v = some q ∧ q ≠ 0 := by
  cases v <;> simp [Api.truthyNum]

theorem truthyInt_iff (v : Option ℤ) :
    Api.truthyInt v = true ↔ ∃ n, v = some n ∧ n ≠ 0 := by
  cases v <;> simp [Api.truthyInt]

theorem truthyList_iff {α : Type} (v : Option (List α)) :
    Api.truthyList v = true ↔ ∃ xs, v = some xs ∧ xs ≠ [] := by
  cases v <;> simp [Api.truthyList, List.length_pos]

theorem isSome_iff_ne_none {α : Type} (v : Option α) :
    v.isSome = true ↔ v ≠ none := by
  cases v <;> simp

theorem mem_map_fst_ite {α β : Type} (c : Prop) [Decidable c]
    (k k' : α) (v : β) :
    (k ∈ (if c then [(k', v)] else []).map Prod.fst) ↔ c ∧ k = k' := by
  by_cases h : c <;> simp [h]

/-- Claim C8: in the review UI, the "please review" banner is rendered
exactly when the displayed confidence is below 0.6, and the enhanced
analysis badge is rendered exactly when `escalated = true`. -/
theorem review_prompt_and_badge (e : Frontend.ExtractionResult)
    (saving : Bool) :
    (Frontend.ReviewNode.reviewBanner ∈ Frontend.renderReviewFromUpload e saving ↔
      e.confidence < 3/5)
    ∧ ((∃ t, Frontend.ReviewNode.enhancedBadge t ∈
          Frontend.renderReviewFromUpload e saving) ↔ e.escalated = true) := by
  unfold Frontend.renderReviewFromUpload Frontend.renderReview
  by_cases hc : e.confidence < 3/5 <;>
    by_cases he : e.escalated = true <;>
      by_cases hk : e.key_terms.length > 0 <;>
        simp [hc, he, hk, List.mem_append]

theorem review_prompt_and_badge_witness :
    Frontend.ReviewNode.reviewBanner ∈
      Frontend.renderReviewFromUpload Frontend.sampleReviewExtraction false :=
  (review_prompt_and_badge Frontend.sampleReviewExtraction false).1.mpr
    (by norm_num [Frontend.sampleReviewExtraction])

/-- Claim C9: the upload handler rejects a file whose name does not end
in `.pdf` (case-insensitively) or whose size exceeds 10*1024*1024 bytes:
it sets an error message and never invokes `extractContract` for that
file. -/
theorem reject_before_extract (f : UploadPage.FileInfo)
    (api : Except String Frontend.ExtractionResult)
    (h : UploadPage.jsEndsWith (UploadPage.jsToLower f.name) ".pdf" = false ∨
      10 * 1024 * 1024 < f.size) :
    (∃ msg, UploadPage.UploadAction.setError (some msg) ∈
      UploadPage.handleFile f api)
    ∧ ∀ n, UploadPage.UploadAction.invokeExtract n ∉
        UploadPage.handleFile f api := by
  unfold UploadPage.handleFile
  by_cases hp : UploadPage.jsEndsWith (UploadPage.jsToLower f.name) ".pdf" = true
  · rcases h with h | h
    · rw [hp] at h
      exact Bool.noConfusion h
    · rw [if_neg (by simp [hp]), if_pos h]
      exact ⟨⟨"File size must be less than 10MB", by simp⟩,
        fun n hn => by simp at hn⟩
  · rw [if_pos (by simpa using hp)]
    exact ⟨⟨"Please upload a PDF file", by simp⟩, fun n hn => by simp at hn⟩

theorem reject_before_extract_witness :
    (∃ msg, UploadPage.UploadAction.setError (some msg) ∈
      UploadPage.handleFile ⟨"contract.txt", 100⟩ (.error "network error"))
    ∧ ∀ n, UploadPage.UploadAction.invokeExtract n ∉
        UploadPage.handleFile ⟨"contract.txt", 100⟩ (.error "network error") :=
  reject_before_extract ⟨"contract.txt", 100⟩ (.error "network error")
    (Or.inl (by decide))

/-- Claim C10: `confirmContracts` omits every extraction field whose
value is falsy — a zero `monthly_cost`, `annual_cost` or
`cancellation_notice_days` and empty `key_terms`/`parties`/`risks` lists
are not sent — whereas `auto_renewal = false` is sent, because it is
tested against `undefined` rather than for truthiness. -/
theorem confirm_omits_falsy (d : Api.ConfirmData) :
    ("monthly_cost" ∈ Api.confirmKeys d ↔
      ∃ q, d.monthly_cost = some q ∧ q ≠ 0)
    ∧ ("annual_cost" ∈ Api.confirmKeys d ↔
      ∃ q, d.annual_cost = some q ∧ q ≠ 0)
    ∧ ("cancellation_notice_days" ∈ Api.confirmKeys d ↔
      ∃ n, d.cancellation_notice_days = some n ∧ n ≠ 0)
    ∧ ("key_terms" ∈ Api.confirmKeys d ↔
      ∃ xs, d.key_terms = some xs ∧ xs ≠ [])
    ∧ ("parties" ∈ Api.confirmKeys d ↔
      ∃ xs, d.parties = some xs ∧ xs ≠ [])
    ∧ ("risks" ∈ Api.confirmKeys d ↔
      ∃ xs, d.risks = some xs ∧ xs ≠ [])
    ∧ ("auto_renewal" ∈ Api.confirmKeys d ↔ d.auto_renewal ≠ none) := by
  simp only [Api.confirmKeys, Api.confirmParams, List.map_append,
    List.mem_append, mem_map_fst_ite]
  simp [truthyNum_iff, truthyInt_iff, truthyList_iff, isSome_iff_ne_none]

theorem confirm_omits_falsy_witness :
    ("monthly_cost" ∉ Api.confirmKeys Api.sampleConfirmData)
    ∧ ("cancellation_notice_days" ∉ Api.confirmKeys Api.sampleConfirmData)
    ∧ ("key_terms" ∉ Api.confirmKeys Api.sampleConfirmData)
    ∧ ("risks" ∉ Api.confirmKeys Api.sampleConfirmData)
    ∧ ("auto_renewal" ∈ Api.confirmKeys Api.sampleConfirmData) := by
  have h := confirm_omits_falsy Api.sampleConfirmData
  refine ⟨fun hm => ?_, fun hm => ?_, fun hm => ?_, fun hm => ?_,
    h.2.2.2.2.2.2.mpr (by simp [Api.sampleConfirmData])⟩
  · rcases h.1.mp hm with ⟨q, hq, hq0⟩
    simp [Api.sampleConfirmData] at hq
    simp [hq] at hq0
  · rcases h.2.2.1.mp hm with ⟨n, hn, hn0⟩
    simp [Api.sampleConfirmData] at hn
    simp [hn] at hn0
  · rcases h.2.2.2.1.mp hm with ⟨xs, hxs, hxs0⟩
    simp [Api.sampleConfirmData] at hxs
    simp [hxs] at hxs0
  · rcases h.2.2.2.2.2.1.mp hm with ⟨xs, hxs, hxs0⟩
    simp [Api.sampleConfirmData] at hxs
    simp [hxs] at hxs0


theorem dropWhile_append_of_all {α : Type} (p : α → Bool) (l1 l2 : List α)
    (h : ∀ c ∈ l1, p c = true) :
    (l1 ++ l2).dropWhile p = l2.dropWhile p := by
  induction l1 with
  | nil => simp
  | cons a t ih =>
    simp only [List.cons_append, List.dropWhile_cons]
    rw [h a (List.mem_cons_self a t), if_pos rfl]
    exact ih fun c hc => h c (List.mem_cons_of_mem _ hc)

/-- The greedy regex span of a text of the shape
`pre { mid } post` with no `\x7b` in `pre` and no `\x7d` in `post`:
exactly the first-open-brace to last-close-brace segment. -/
theorem greedySpan_eq (pre mid post : List Char)
    (hpre : '{' ∉ pre) (hpost : '}' ∉ post) :
    greedySpan (pre ++ '{' :: (mid ++ '}' :: post)) =
      some ('{' :: (mid ++ ['}'])) := by
  unfold greedySpan
  have h1 : (pre ++ '{' :: (mid ++ '}' :: post)).dropWhile
      (fun c => !(c = '{')) = '{' :: (mid ++ '}' :: post) := by
    rw [dropWhile_append_of_all _ pre _ fun c hc => ?_]
    · simp [List.dropWhile_cons]
    · have hne : c ≠ '{' := fun hx => hpre (hx ▸ hc)
      simp [hne]
  rw [h1]
  have h2 : ('{' :: (mid ++ '}' :: post)).reverse =
      post.reverse ++ '}' :: (mid.reverse ++ ['{']) := by
    simp [List.reverse_cons, List.reverse_append, List.append_assoc]
  rw [h2]
  have h3 : (post.reverse ++ '}' :: (mid.reverse ++ ['{'])).dropWhile
      (fun c => !(c = '}')) = '}' :: (mid.reverse ++ ['{']) := by
    rw [dropWhile_append_of_all _ post.reverse _ fun c hc => ?_]
    · simp [List.dropWhile_cons]
    · have hne : c ≠ '}' := fun hx => hpost (hx ▸ (List.mem_reverse.1 hc))
      simp [hne]
  rw [h3]
  rw [if_neg (by simp)]
  simp [List.reverse_cons, List.reverse_append, List.reverse_reverse,
    List.append_assoc]

/-- Claim C2 (amended): the implemented parser tries a direct parse and
then exactly one retry, on the greedy first-`\x7b`-to-last-`\x7d` span. -/
theorem response_parse_amended :
    (∀ raw j, jsonParse raw = some j → parseResponse raw = some j)
    ∧ (∀ pre mid post : List Char, '{' ∉ pre → '}' ∉ post →
        greedySpan (pre ++ '{' :: (mid ++ '}' :: post)) =
          some ('{' :: (mid ++ ['}'])) ∧
        (jsonParse (String.mk (pre ++ '{' :: (mid ++ '}' :: post))) = none →
          parseResponse (String.mk (pre ++ '{' :: (mid ++ '}' :: post))) =
            jsonParse (String.mk ('{' :: (mid ++ ['}'])))))
    ∧ (∀ raw, jsonParse raw = none → greedySpan raw.data = none →
        parseResponse raw = none) := by
  refine ⟨fun raw j h => ?_, fun pre mid post hpre hpost => ?_,
    fun raw h1 h2 => ?_⟩
  · simp only [parseResponse, h]
  · have hspan := greedySpan_eq pre mid post hpre hpost
    refine ⟨hspan, fun hfail => ?_⟩
    simp only [parseResponse, hfail]
    rw [hspan]
  · simp only [parseResponse, h1, h2]

theorem response_parse_amended_witness :
    parseResponse (String.mk (['x'] ++ '{' :: ("\"a\":1".data ++ '}' :: []))) =
      jsonParse (String.mk ('{' :: ("\"a\":1".data ++ ['}']))) :=
  (response_parse_amended.2.1 ['x'] "\"a\":1".data []
    (by decide) (by decide)).2 (by rfl)

/-- Claim C2, counterexample: on `x{"a":1}y}` the implemented parser
fails (its greedy span `{"a":1}y}` is not JSON), while the three-tier
parser the spec describes succeeds via its bracket-counted balanced span
`{"a":1}`. -/
theorem response_parse_counterexample :
    parseResponse "x\x7b\"a\":1\x7dy\x7d" = none
    ∧ (parseResponseSpec "x\x7b\"a\":1\x7dy\x7d").toOption.isSome = true :=
  ⟨rfl, rfl⟩

end Contracts
